import Mathlib

/-!
# Verification of the BOM-comparison client (frontend sources)

A shallow embedding of the client-side logic of the BOM-comparison web
application: the results page (action-path counting, RAG filtering,
CSV export), the upload page (file-extension validation), the dashboard
(average progress), the processing page (stage-status view) and the
WebSocket reconnection policy.

JavaScript strings are modelled as Lean `String`s; where character-level
reasoning is needed (CSV rendering and re-parsing) a string is viewed
through its character list `String.data`.  JavaScript's `x || d` default
on string fields (which also replaces the empty string, since `""` is
falsy) is modelled by `jsOrStr`; absent fields are `Option.none`.
Numbers are modelled as rationals, `Math.round` as `⌊x + 1/2⌋`.
-/

namespace BomClient

/-- JavaScript `v || d` on an optional string field: `undefined`/`null`
and the empty string (all falsy) are replaced by the default `d`. -/
def jsOrStr (v : Option String) (d : String) : String :=
  match v with
  | none => d
  | some s => if s = "" then d else s

/-- JavaScript `v || d` on an optional numeric label: `undefined` and `0`
(falsy) are replaced by the default `d`. -/
def jsOrNat (v : Option Nat) (d : Nat) : Nat :=
  match v with
  | none => d
  | some n => if n = 0 then d else n

/-- JavaScript string interpolation of a possibly-absent value:
interpolating `undefined` produces the literal string `"undefined"`. -/
def jsTemplateStr (v : Option String) : String :=
  v.getD "undefined"

/-- JavaScript `v > 0` on a possibly-absent number (`undefined > 0` is false). -/
def jsGtZero (v : Option ℚ) : Bool :=
  match v with
  | none => false
  | some q => decide (0 < q)

/-- JavaScript `Math.round`: round half toward positive infinity. -/
def jsRound (q : ℚ) : ℤ := ⌊q + 1 / 2⌋

/-- A match record as consumed by the results page (`ResultsPage`):
the union of extracted-item and supplier fields delivered by
`GET /api/results/{workflow_id}`.  Fields that may be absent from the
JSON payload are `Option`s. -/
structure Match where
  qa_material_name : Option String
  qc_process_step : Option String
  consumable_jigs_tools : Bool
  name_mismatch : Bool
  part_number : Option String
  pn_mismatch : Bool
  quantity : Option String
  unit_of_measure : Option String
  obsolete_pn : Bool
  vendor_name : Option String
  kit_available : Bool
  qa_confidence_level : Option String
  qa_action_path : Option String
  qa_classification_label : Option Nat
  confidence_score : Option ℚ
  supplier_description : Option String
  supplier_part_number : Option String
  reasoning : Option String
  deriving DecidableEq, Repr

/-- The three action-path tags (green = auto-register,
amber = auto-with-flag, red = human intervention). -/
inductive ActionPath
  | green
  | amber
  | red
  deriving DecidableEq, Repr

/-- Modelled from the spec: the fixed lookup table mapping a
classification label (1–13) to its action-path tag — labels 1–2 → green,
{3, 9, 11, 12} → amber, {4, 5, 6, 7, 8, 10, 13} → red.  The backend
extraction stage that derives `qa_action_path` from
`qa_classification_label` is not among the frontend sources; the table
is taken from the specification's §3 invariant. -/
def actionPathTable : List (Nat × ActionPath) :=
  [(1, .green), (2, .green),
   (3, .amber), (9, .amber), (11, .amber), (12, .amber),
   (4, .red), (5, .red), (6, .red), (7, .red), (8, .red), (10, .red), (13, .red)]

/-- The closed 13-label classification domain. -/
def labelDomain : List Nat := [1, 2, 3, 4, 5, 6, 7, 8, 9, 10, 11, 12, 13]

/-- Function `getActionPathIcon` from `ResultsPage`: maps an action-path tag to
its display icon, text and CSS class; any unrecognised tag falls back to
the amber display. -/
def getActionPathIcon (actionPath : String) : String × String × String :=
  if actionPath = "🟢" then ("🟢", "Auto-Register", "text-green-600")
  else if actionPath = "🟠" then ("🟠", "Auto w/ Flag", "text-yellow-600")
  else if actionPath = "🔴" then ("🔴", "Human Intervention", "text-red-600")
  else ("🟠", "Auto w/ Flag", "text-yellow-600")

/-- Function `getClassificationDescription` from `ResultsPage`: the description
text for each classification label, with a fallback for unknown labels. -/
def getClassificationDescription (label : Nat) : String :=
  if label = 1 then "Consumable/Jigs/Tools + PN + Qty"
  else if label = 2 then "Consumable/Jigs/Tools + PN + Spec + Qty"
  else if label = 3 then "Consumable/Jigs/Tools (no qty)"
  else if label = 4 then "Consumable/Jigs/Tools (no Part Number)"
  else if label = 5 then "No Consumable/Jigs/Tools Mentioned"
  else if label = 6 then "Consumable/Jigs/Tools + Part Number mismatch"
  else if label = 7 then "Consumable/Jigs/Tools + Obsolete Part Number"
  else if label = 8 then "Ambiguous Consumable/Jigs/Tools Name"
  else if label = 9 then "Vendor Name Only"
  else if label = 10 then "Multiple Consumable/Jigs/Tools, no mapping"
  else if label = 11 then "Pre-assembled kit mentioned"
  else if label = 12 then "Work Instruction mentions Consumable/Jigs/Tools only"
  else if label = 13 then "Vendor + Kit Mentioned (no PN)"
  else "Unknown Classification"

end BomClient

namespace BomClient

/-! ## CSV export (`exportQAClassificationCSV` from `ResultsPage`) -/

/-- The fixed CSV header row of `exportQAClassificationCSV`. -/
def csvHeaders : List String :=
  ["S. No.",
   "Material Name",
   "QC Process / WI Step",
   "Consumable/Jigs/Tools",
   "Name Mismatch",
   "PN (Part Name)",
   "PN Mismatch",
   "Qty",
   "UoM",
   "Obsolete PN",
   "Vendor Name",
   "Kit Available",
   "AI Engine Processing",
   "Confidence Level",
   "Action Path (RAG)",
   "Classification Label",
   "Supplier Match",
   "Match Confidence",
   "Reason"]

/-- One CSV data row of `exportQAClassificationCSV`, for the match at
position `index` (0-based; the emitted serial number is `index + 1`).
`quantity` is modelled as the string the JavaScript template renders. -/
def csvRowCells (index : Nat) (m : Match) : List String :=
  [toString (index + 1),
   jsOrStr m.qa_material_name "",
   jsOrStr m.qc_process_step "",
   if m.consumable_jigs_tools then "Yes" else "No",
   if m.name_mismatch then "Yes" else "No",
   jsOrStr m.part_number "",
   if m.pn_mismatch then "Yes" else "No",
   jsOrStr m.quantity "",
   jsOrStr m.unit_of_measure "",
   if m.obsolete_pn then "Yes" else "No",
   jsOrStr m.vendor_name "",
   if m.kit_available then "Yes" else "No",
   "AI Processed",
   jsOrStr m.qa_confidence_level "Medium",
   jsOrStr m.qa_action_path "🟠",
   "Label " ++ toString (jsOrNat m.qa_classification_label 5),
   if jsGtZero m.confidence_score then jsTemplateStr m.supplier_description
     else "No Match",
   toString (jsRound ((m.confidence_score.getD 0) * 100)) ++ "%",
   jsOrStr m.reasoning "No reason provided"]

/-- A cell as emitted: wrapped in double quotes (the template
`"${cell}"` of the export code). -/
def quoteCell (cell : String) : List Char :=
  '"' :: (cell.data ++ ['"'])

/-- One emitted CSV line: the quoted cells joined with commas
(`row.map(cell => ...).join(',')`). -/
def renderRow (cells : List String) : List Char :=
  List.intercalate [','] (cells.map quoteCell)

/-- The full table the export renders: the header row followed by one
data row per match (`[csvHeaders, ...csvRows]`). -/
def csvTable (ms : List Match) : List (List String) :=
  csvHeaders :: (ms.enum.map fun p => csvRowCells p.1 p.2)

/-- The emitted lines of the CSV document. -/
def csvLines (ms : List Match) : List (List Char) :=
  (csvTable ms).map renderRow

/-- The CSV document: the lines joined with newlines (`.join('\n')`),
as a character sequence. -/
def csvContent (ms : List Match) : List Char :=
  List.intercalate ['\n'] (csvLines ms)

/-! ## CSV re-parsing

A standard quote-aware CSV reader, the inverse of the renderer above:
a row is a comma-separated sequence of double-quoted cells, a cell's
content runs to the next double quote (the export writes no escape
sequences), and a document is split into rows at newlines. -/

/-- Read one quoted cell body up to the closing quote; returns the cell
content and the remaining input after the closing quote. -/
def readCell : List Char → Option (List Char × List Char)
  | [] => none
  | c :: rest =>
    if c = '"' then some ([], rest)
    else
      match readCell rest with
      | none => none
      | some (cell, rest₁) => some (c :: cell, rest₁)

/-- Worker for `parseRow`: parse a comma-separated sequence of quoted
cells, with a fuel bound on recursion depth (one unit per cell; any fuel
beyond the input length is sufficient). -/
def parseRowAux : Nat → List Char → Option (List (List Char))
  | 0, _ => none
  | _ + 1, [] => none
  | fuel + 1, c :: rest =>
    if c = '"' then
      match readCell rest with
      | none => none
      | some (cell, rest₁) =>
        match rest₁ with
        | [] => some [cell]
        | c₁ :: rest₂ =>
          if c₁ = ',' then
            match parseRowAux fuel rest₂ with
            | none => none
            | some cells => some (cell :: cells)
          else none
    else none

/-- Parse one CSV line into its cells.  The line must be a nonempty
comma-separated sequence of double-quoted cells. -/
def parseRow (l : List Char) : Option (List (List Char)) :=
  parseRowAux (l.length + 1) l

/-- Parse a CSV document: split at newlines, parse every line. -/
def parseCSV (content : List Char) : Option (List (List (List Char))) :=
  (content.splitOn '\n').mapM parseRow

/-! ## Round-trip lemmas for the CSV renderer and reader -/

theorem intercalate_singleton {α : Type} (sep : List α) (a : List α) :
    List.intercalate sep [a] = a := by
  simp [List.intercalate, List.intersperse]

theorem intercalate_cons_cons {α : Type} (sep : List α) (a b : List α)
    (t : List (List α)) :
    List.intercalate sep (a :: b :: t) = a ++ sep ++ List.intercalate sep (b :: t) := by
  simp [List.intercalate, List.intersperse, List.append_assoc]

theorem readCell_append (cell rest : List Char) (h : '"' ∉ cell) :
    readCell (cell ++ '"' :: rest) = some (cell, rest) := by
  induction cell with
  | nil => simp [readCell]
  | cons c cs ih =>
    simp only [List.mem_cons, not_or] at h
    have hne : ¬(c = '"') := fun hh => h.1 hh.symm
    have hrec := ih h.2
    simp only [List.cons_append, readCell, List.append_eq, if_neg hne, hrec]

theorem renderRow_cons_cons (c c₂ : String) (cs₂ : List String) :
    renderRow (c :: c₂ :: cs₂) =
      '"' :: (c.data ++ '"' :: (',' :: renderRow (c₂ :: cs₂))) := by
  simp only [renderRow, List.map_cons]
  rw [intercalate_cons_cons]
  simp [quoteCell, List.append_assoc]

theorem length_le_renderRow (cells : List String) :
    cells.length ≤ (renderRow cells).length := by
  induction cells with
  | nil => simp
  | cons c cs ih =>
    cases cs with
    | nil => simp [renderRow, intercalate_singleton, quoteCell]
    | cons c₂ cs₂ =>
      rw [renderRow_cons_cons]
      simp only [List.length_cons, List.length_append] at ih ⊢
      omega

theorem parseRowAux_renderRow :
    ∀ (cells : List String) (fuel : Nat),
      (∀ c ∈ cells, '"' ∉ c.data) → cells.length ≤ fuel → cells ≠ [] →
      parseRowAux fuel (renderRow cells) = some (cells.map String.data) := by
  intro cells
  induction cells with
  | nil => intro fuel _ _ hne; exact absurd rfl hne
  | cons c cs ih =>
    intro fuel hq hfuel _
    obtain ⟨f, rfl⟩ : ∃ f, fuel = f + 1 := by
      cases fuel with
      | zero => simp at hfuel
      | succ f => exact ⟨f, rfl⟩
    have hc : '"' ∉ c.data := hq c (by simp)
    cases cs with
    | nil =>
      have hread : readCell (c.data ++ '"' :: []) = some (c.data, []) :=
        readCell_append c.data [] hc
      simp only [renderRow, List.map_cons, List.map_nil, intercalate_singleton,
        quoteCell]
      simp [parseRowAux, hread]
    | cons c₂ cs₂ =>
      have hrest : parseRowAux f (renderRow (c₂ :: cs₂)) =
          some ((c₂ :: cs₂).map String.data) := by
        refine ih f (fun x hx => hq x (List.mem_cons_of_mem _ hx)) ?_ (by simp)
        simp only [List.length_cons] at hfuel ⊢
        omega
      have hread :
          readCell (c.data ++ '"' :: (',' :: renderRow (c₂ :: cs₂))) =
            some (c.data, ',' :: renderRow (c₂ :: cs₂)) :=
        readCell_append c.data _ hc
      rw [renderRow_cons_cons]
      simp [parseRowAux, hread, hrest]

theorem parseRow_renderRow (cells : List String) (hne : cells ≠ [])
    (hq : ∀ c ∈ cells, '"' ∉ c.data) :
    parseRow (renderRow cells) = some (cells.map String.data) :=
  parseRowAux_renderRow cells _ hq
    (Nat.le_trans (length_le_renderRow cells) (Nat.le_succ _)) hne

theorem mem_quoteCell {a : Char} {c : String} (h : a ∈ quoteCell c) :
    a = '"' ∨ a ∈ c.data := by
  simp only [quoteCell, List.mem_cons, List.mem_append, List.mem_singleton] at h
  tauto

theorem mem_renderRow {a : Char} {cells : List String} (h : a ∈ renderRow cells) :
    a = '"' ∨ a = ',' ∨ ∃ c ∈ cells, a ∈ c.data := by
  induction cells with
  | nil => simp [renderRow, List.intercalate, List.intersperse] at h
  | cons c cs ih =>
    cases cs with
    | nil =>
      simp only [renderRow, List.map_cons, List.map_nil, intercalate_singleton] at h
      rcases mem_quoteCell h with h1 | h1
      · exact Or.inl h1
      · exact Or.inr (Or.inr ⟨c, by simp, h1⟩)
    | cons c₂ cs₂ =>
      simp only [renderRow, List.map_cons] at h
      rw [intercalate_cons_cons] at h
      simp only [List.mem_append, List.mem_singleton] at h
      rcases h with (h1 | h1) | h1
      · rcases mem_quoteCell h1 with h2 | h2
        · exact Or.inl h2
        · exact Or.inr (Or.inr ⟨c, by simp, h2⟩)
      · exact Or.inr (Or.inl h1)
      · rcases ih h1 with h2 | h2 | ⟨x, hx, hax⟩
        · exact Or.inl h2
        · exact Or.inr (Or.inl h2)
        · exact Or.inr (Or.inr ⟨x, List.mem_cons_of_mem _ hx, hax⟩)

theorem newline_not_mem_renderRow {cells : List String}
    (h : ∀ c ∈ cells, '\n' ∉ c.data) : '\n' ∉ renderRow cells := by
  intro hmem
  rcases mem_renderRow hmem with h1 | h1 | ⟨c, hc, hnc⟩
  · exact absurd h1 (by decide)
  · exact absurd h1 (by decide)
  · exact h c hc hnc

theorem csvTable_length (ms : List Match) :
    (csvTable ms).length = ms.length + 1 := by
  simp [csvTable]

theorem csvRowCells_length (index : Nat) (m : Match) :
    (csvRowCells index m).length = 19 := by
  simp [csvRowCells]

theorem csvHeaders_length : csvHeaders.length = 19 := by
  simp [csvHeaders]

theorem csvTable_row_length {ms : List Match} {row : List String}
    (h : row ∈ csvTable ms) : row.length = 19 := by
  simp only [csvTable, List.mem_cons, List.mem_map] at h
  rcases h with rfl | ⟨p, _, rfl⟩
  · exact csvHeaders_length
  · exact csvRowCells_length p.1 p.2

theorem csvTable_row_ne_nil {ms : List Match} {row : List String}
    (h : row ∈ csvTable ms) : row ≠ [] := by
  have := csvTable_row_length h
  intro hnil
  rw [hnil] at this
  simp at this

theorem splitOn_csvContent (ms : List Match)
    (hnl : ∀ row ∈ csvTable ms, ∀ c ∈ row, '\n' ∉ c.data) :
    (csvContent ms).splitOn '\n' = csvLines ms := by
  have hne : csvLines ms ≠ [] := by simp [csvLines, csvTable]
  have hmem : ∀ line ∈ csvLines ms, '\n' ∉ line := by
    intro line hline
    simp only [csvLines, List.mem_map] at hline
    rcases hline with ⟨row, hrow, rfl⟩
    exact newline_not_mem_renderRow (hnl row hrow)
  exact List.splitOn_intercalate (csvLines ms) '\n' hmem hne

theorem parseCSV_csvContent (ms : List Match)
    (hsafe : ∀ row ∈ csvTable ms, ∀ c ∈ row, '"' ∉ c.data ∧ '\n' ∉ c.data) :
    parseCSV (csvContent ms) = some ((csvTable ms).map fun row => row.map String.data) := by
  have hsplit : (csvContent ms).splitOn '\n' = csvLines ms :=
    splitOn_csvContent ms (fun row hrow c hc => (hsafe row hrow c hc).2)
  unfold parseCSV
  rw [hsplit]
  simp only [csvLines]
  have : ∀ rows : List (List String),
      (∀ row ∈ rows, row ≠ []) →
      (∀ row ∈ rows, ∀ c ∈ row, '"' ∉ c.data) →
      (rows.map renderRow).mapM parseRow = some (rows.map fun row => row.map String.data) := by
    intro rows
    induction rows with
    | nil => intro _ _; rfl
    | cons r rs ih =>
      intro hne hq
      have hr : parseRow (renderRow r) = some (r.map String.data) :=
        parseRow_renderRow r (hne r (by simp)) (hq r (by simp))
      have hrs := ih (fun row hrow => hne row (List.mem_cons_of_mem _ hrow))
        (fun row hrow => hq row (List.mem_cons_of_mem _ hrow))
      simp only [List.map_cons, List.mapM_cons, hr, hrs, Option.pure_def,
        Option.bind_eq_bind, Option.some_bind]
  exact this (csvTable ms) (fun row h => csvTable_row_ne_nil h)
    (fun row h c hc => (hsafe row h c hc).1)

/-! ## Results page: action-path counts, RAG filter, confidence cell -/

/-- Embeds `matches.filter(m => m.qa_action_path === '🟢').length`. -/
def greenCount (ms : List Match) : Nat :=
  (ms.filter fun m => m.qa_action_path == some "🟢").length

/-- Embeds `matches.filter(m => m.qa_action_path === '🟠').length`. -/
def amberCount (ms : List Match) : Nat :=
  (ms.filter fun m => m.qa_action_path == some "🟠").length

/-- Embeds `matches.filter(m => m.qa_action_path === '🔴').length`. -/
def redCount (ms : List Match) : Nat :=
  (ms.filter fun m => m.qa_action_path == some "🔴").length

/-- Function `filteredMatches` from `ResultsPage`: the whole list for the filter
value `all`, otherwise the matches whose `qa_action_path` equals the tag
selected by the filter value (any other filter value keeps everything,
mirroring the `return true` fallback of the callback). -/
def filteredMatches (filterRAG : String) (ms : List Match) : List Match :=
  if filterRAG = "all" then ms
  else
    ms.filter fun m =>
      if filterRAG = "green" then m.qa_action_path == some "🟢"
      else if filterRAG = "amber" then m.qa_action_path == some "🟠"
      else if filterRAG = "red" then m.qa_action_path == some "🔴"
      else true

/-- The confidence cell of the classification table:
`match.qa_confidence_level || 'Medium'`. -/
def confidenceCellText (m : Match) : String :=
  jsOrStr m.qa_confidence_level "Medium"

/-! ## Upload page: file-extension validation -/

/-- Accepted extensions for the QA/WI document. -/
def qaDocTypes : List String := [".pdf", ".docx", ".doc", ".txt"]

/-- Accepted extensions for the supplier item list. -/
def bomTypes : List String := [".xlsx", ".xls", ".csv"]

/-- The extension the selection handlers compute:
`'.' + file.name.split('.').pop().toLowerCase()` — the last
dot-separated segment of the name (the whole name when it has no dot),
lowercased, behind a dot.  The split and the lowercasing are modelled
on the name's character list. -/
def fileExtOf (name : String) : String :=
  String.mk ('.' :: ((name.data.splitOn '.').getLastD []).map Char.toLower)

/-- The final extension of a file name as the specification reads it:
the text after the last dot, lowercased, when the name contains a dot;
a dotless name has no extension. -/
def finalExtension (name : String) : Option String :=
  if '.' ∈ name.data then
    some (String.mk (((name.data.splitOn '.').getLastD []).map Char.toLower))
  else none

/-- Outcome of a file-selection handler: the selected-file state after
the call and whether the error toast was shown. -/
structure SelectResult where
  selected : Option String
  errorShown : Bool
  deriving DecidableEq, Repr

/-- Handlers `handleQaDocumentSelect` / `handleSupplierBomSelect` from
`UploadPage`, parametrised by the allowed extension list: an
unsupported extension shows the error toast and returns without
touching the selected-file state; otherwise the file is stored. -/
def handleFileSelect (allowed : List String) (current : Option String)
    (name : String) : SelectResult :=
  if ¬allowed.contains (fileExtOf name) then ⟨current, true⟩
  else ⟨some name, false⟩

/-- Handler `handleStartProcessing` from `UploadPage`, reduced to whether the
upload (and hence workflow creation) is initiated: it requires both
documents to be selected. -/
def startProcessingProceeds (qaDocument supplierBom : Option String) : Bool :=
  qaDocument.isSome && supplierBom.isSome

/-! ## Dashboard: average progress -/

/-- A workflow snapshot as the dashboard consumes it. -/
structure DashWorkflow where
  status : String
  progress : Option ℚ
  deriving DecidableEq

/-- Computation `averageProgress` from the dashboard:
`workflowsArray.length > 0 ? workflowsArray.reduce((sum, w) => sum +
(w.progress || 0), 0) / workflowsArray.length : 0`. -/
def averageProgress (ws : List DashWorkflow) : ℚ :=
  if ws.length > 0 then
    (ws.foldl (fun sum w => sum + w.progress.getD 0) 0) / (ws.length : ℚ)
  else 0

/-! ## Processing page: stage-status view -/

/-- The stage keys of the pipeline view, in display order. -/
def stageKeys : List String := ["translation", "extraction", "supplier_bom", "comparison"]

/-- A workflow snapshot as the processing page consumes it. -/
structure WorkflowView where
  status : String
  current_stage : String
  deriving DecidableEq

/-- JavaScript `Array.prototype.findIndex`: the index of the first
element satisfying the predicate, or `-1`. -/
def jsFindIndex (keys : List String) (key : String) : Int :=
  match keys.findIdx? (fun s => s == key) with
  | some i => (i : Int)
  | none => -1

/-- Function `getStageStatus` from `ProcessingPage`. -/
def getStageStatus (workflow : Option WorkflowView) (stageKey : String) : String :=
  match workflow with
  | none => "idle"
  | some w =>
    let currentStageIndex := jsFindIndex stageKeys w.current_stage
    let stageIndex := jsFindIndex stageKeys stageKey
    if w.status = "error" then "error"
    else if w.status = "completed" then "completed"
    else if stageIndex < currentStageIndex then "completed"
    else if stageIndex = currentStageIndex then "processing"
    else "idle"

/-! ## WebSocket reconnection policy (`useWebSocket`) -/

/-- Handler `ws.current.onclose`: a reconnect is scheduled (the result is its
delay in milliseconds, `Math.pow(2, attempts) * 1000`) only while the
attempt counter is strictly below 5. -/
def scheduleReconnect (reconnectAttempts : Nat) : Option Nat :=
  if reconnectAttempts < 5 then some (2 ^ reconnectAttempts * 1000)
  else none

/-- The scheduled timeout body increments the attempt counter before
calling `connect`. -/
def attemptsAfterTimeout (reconnectAttempts : Nat) : Nat :=
  reconnectAttempts + 1

/-- Handler `ws.current.onopen` resets the attempt counter to 0. -/
def attemptsAfterOpen (_reconnectAttempts : Nat) : Nat := 0

/-- The attempt counter after `k` consecutive connection-close events
starting from counter value `a`: each close either schedules a
reconnect, whose timeout increments the counter, or does nothing. -/
def attemptsAfterCloses : Nat → Nat → Nat
  | a, 0 => a
  | a, k + 1 =>
    match scheduleReconnect a with
    | some _ => attemptsAfterCloses (attemptsAfterTimeout a) k
    | none => attemptsAfterCloses a k

/-- The number of reconnects scheduled over `k` consecutive
connection-close events starting from counter value `a`. -/
def reconnectsScheduled : Nat → Nat → Nat
  | _, 0 => 0
  | a, k + 1 =>
    match scheduleReconnect a with
    | some _ => reconnectsScheduled (attemptsAfterTimeout a) k + 1
    | none => reconnectsScheduled a k

/-- Claim C1: every classification label in the closed enumeration 1–13
maps to exactly one of the three action-path tags, following the fixed
table (1–2 → green, {3,9,11,12} → amber, {4,5,6,7,8,10,13} → red);
the mapping is total over the 13-label domain and no label maps to more
than one tag. -/
theorem classification_action_path_table_total_and_functional :
    (labelDomain.all fun l =>
      (actionPathTable.countP fun p => p.1 == l) == 1) = true
    ∧ actionPathTable.lookup 1 = some .green
    ∧ actionPathTable.lookup 2 = some .green
    ∧ actionPathTable.lookup 3 = some .amber
    ∧ actionPathTable.lookup 9 = some .amber
    ∧ actionPathTable.lookup 11 = some .amber
    ∧ actionPathTable.lookup 12 = some .amber
    ∧ actionPathTable.lookup 4 = some .red
    ∧ actionPathTable.lookup 5 = some .red
    ∧ actionPathTable.lookup 6 = some .red
    ∧ actionPathTable.lookup 7 = some .red
    ∧ actionPathTable.lookup 8 = some .red
    ∧ actionPathTable.lookup 10 = some .red
    ∧ actionPathTable.lookup 13 = some .red
    ∧ ∀ p ∈ actionPathTable, p.1 ∈ labelDomain := by
  refine ⟨by decide, ?_⟩
  repeat' constructor
  all_goals first
    | rfl
    | decide

theorem classification_action_path_table_witness :
    ((3, ActionPath.amber) ∈ actionPathTable) ∧ (3 ∈ labelDomain) :=
  ⟨by decide,
   classification_action_path_table_total_and_functional.2.2.2.2.2.2.2.2.2.2.2.2.2.2
     (3, ActionPath.amber) (by decide)⟩

/-- A match record with every optional field absent and every flag
false; concrete records below are built from it. -/
def defaultMatch : Match where
  qa_material_name := none
  qc_process_step := none
  consumable_jigs_tools := false
  name_mismatch := false
  part_number := none
  pn_mismatch := false
  quantity := none
  unit_of_measure := none
  obsolete_pn := false
  vendor_name := none
  kit_available := false
  qa_confidence_level := none
  qa_action_path := none
  qa_classification_label := none
  confidence_score := none
  supplier_description := none
  supplier_part_number := none
  reasoning := none

/-- Claim C8: filtering the result set by action-path tag is a pure
function of the already-fetched match list and the selected filter
value: `all` returns the entire match list unchanged; `green`, `amber`
and `red` return exactly the sublist of matches whose `qa_action_path`
equals the corresponding tag, in the original order (each filtered view
is a sublist of the input list, which is left untouched; no server
operation is involved). -/
theorem filteredMatches_pure_view (ms : List Match) :
    filteredMatches "all" ms = ms
    ∧ filteredMatches "green" ms = ms.filter (fun m => m.qa_action_path == some "🟢")
    ∧ filteredMatches "amber" ms = ms.filter (fun m => m.qa_action_path == some "🟠")
    ∧ filteredMatches "red" ms = ms.filter (fun m => m.qa_action_path == some "🔴")
    ∧ (∀ m, m ∈ filteredMatches "green" ms ↔ m ∈ ms ∧ m.qa_action_path = some "🟢")
    ∧ (∀ m, m ∈ filteredMatches "amber" ms ↔ m ∈ ms ∧ m.qa_action_path = some "🟠")
    ∧ (∀ m, m ∈ filteredMatches "red" ms ↔ m ∈ ms ∧ m.qa_action_path = some "🔴")
    ∧ (filteredMatches "green" ms).Sublist ms
    ∧ (filteredMatches "amber" ms).Sublist ms
    ∧ (filteredMatches "red" ms).Sublist ms := by
  have hg : filteredMatches "green" ms =
      ms.filter (fun m => m.qa_action_path == some "🟢") := by
    simp [filteredMatches]
  have ha : filteredMatches "amber" ms =
      ms.filter (fun m => m.qa_action_path == some "🟠") := by
    simp [filteredMatches]
  have hr : filteredMatches "red" ms =
      ms.filter (fun m => m.qa_action_path == some "🔴") := by
    simp [filteredMatches]
  refine ⟨by simp [filteredMatches], hg, ha, hr, ?_, ?_, ?_, ?_, ?_, ?_⟩
  · intro m; rw [hg]; simp [List.mem_filter]
  · intro m; rw [ha]; simp [List.mem_filter]
  · intro m; rw [hr]; simp [List.mem_filter]
  · rw [hg]; exact List.filter_sublist ms
  · rw [ha]; exact List.filter_sublist ms
  · rw [hr]; exact List.filter_sublist ms

/-- Claim C9: the dashboard's average-progress computation is total and
safe — it returns 0 for the empty workflow list (the division is
guarded and never performed on a zero count), and for a non-empty list
it returns the sum of the workflows' progress values (a missing
progress treated as 0) divided by the number of workflows. -/
theorem averageProgress_total_and_safe :
    averageProgress [] = 0
    ∧ ∀ ws : List DashWorkflow, ws ≠ [] →
        averageProgress ws =
          ((ws.map fun w => w.progress.getD 0).sum) / (ws.length : ℚ) := by
  constructor
  · rfl
  · intro ws hne
    have hfold : ∀ (l : List DashWorkflow) (init : ℚ),
        l.foldl (fun sum w => sum + w.progress.getD 0) init =
          init + (l.map fun w => w.progress.getD 0).sum := by
      intro l
      induction l with
      | nil => intro init; simp
      | cons w l ih =>
        intro init
        simp only [List.foldl_cons, List.map_cons, List.sum_cons, ih]
        ring
    have hlen : ws.length > 0 := List.length_pos.mpr hne
    simp only [averageProgress, if_pos hlen, hfold, zero_add]

theorem averageProgress_witness :
    ([⟨"completed", some 40⟩, ⟨"processing", none⟩] : List DashWorkflow) ≠ []
    ∧ averageProgress [⟨"completed", some 40⟩, ⟨"processing", none⟩] =
        (([⟨"completed", some 40⟩, ⟨"processing", none⟩] :
          List DashWorkflow).map fun w => w.progress.getD 0).sum / 2 :=
  ⟨by simp,
   averageProgress_total_and_safe.2
     [⟨"completed", some 40⟩, ⟨"processing", none⟩] (by simp)⟩

theorem reconnectsScheduled_le (k a : Nat) : reconnectsScheduled a k ≤ 5 - a := by
  induction k generalizing a with
  | zero => simp [reconnectsScheduled]
  | succ k ih =>
    by_cases h : a < 5
    · have h1 := ih (a + 1)
      simp only [reconnectsScheduled, scheduleReconnect, if_pos h,
        attemptsAfterTimeout]
      omega
    · have h1 := ih a
      simp only [reconnectsScheduled, scheduleReconnect, if_neg h]
      exact h1

/-- Claim C10: the WebSocket client's reconnection is bounded — after a
close, a reconnect is scheduled only while the attempt counter is
strictly below 5, with a delay of `2 ^ attempts * 1000` milliseconds;
over any sequence of consecutive failed connections at most 5
reconnects are ever scheduled; a successful open resets the counter
to 0. -/
theorem websocket_reconnect_bounded :
    (∀ a, a < 5 → scheduleReconnect a = some (2 ^ a * 1000))
    ∧ (∀ a, 5 ≤ a → scheduleReconnect a = none)
    ∧ (∀ k, reconnectsScheduled 0 k ≤ 5)
    ∧ (∀ a, attemptsAfterOpen a = 0) := by
  refine ⟨?_, ?_, ?_, ?_⟩
  · intro a h; simp [scheduleReconnect, h]
  · intro a h; simp [scheduleReconnect, Nat.not_lt.mpr h]
  · intro k; simpa using reconnectsScheduled_le k 0
  · intro a; rfl

theorem websocket_reconnect_bounded_witness :
    scheduleReconnect 3 = some 8000
    ∧ scheduleReconnect 5 = none
    ∧ reconnectsScheduled 0 12 ≤ 5
    ∧ attemptsAfterOpen 4 = 0 :=
  ⟨websocket_reconnect_bounded.1 3 (by decide),
   websocket_reconnect_bounded.2.1 5 (by decide),
   websocket_reconnect_bounded.2.2.1 12,
   websocket_reconnect_bounded.2.2.2 4⟩

/-- Claim C3 fails as stated: a match whose `qa_action_path` is absent
(or any string other than the three tags) is counted under none of the
three action-path counts, so the counts do not sum to the length of the
match list. -/
theorem action_path_counts_counterexample :
    greenCount [defaultMatch] + amberCount [defaultMatch] + redCount [defaultMatch] = 0
    ∧ ([defaultMatch] : List Match).length = 1 := by
  constructor
  · rfl
  · rfl

/-- Claim C3 (amended): whenever every match record's `qa_action_path`
is one of the three tags, the derived summary counts per tag sum to the
number of match records, each record being counted under exactly the
one tag it carries.  (Without that premise a record carrying no tag is
counted nowhere.) -/
theorem action_path_counts_sum (ms : List Match)
    (h : ∀ m ∈ ms, m.qa_action_path = some "🟢" ∨ m.qa_action_path = some "🟠"
      ∨ m.qa_action_path = some "🔴") :
    greenCount ms + amberCount ms + redCount ms = ms.length := by
  induction ms with
  | nil => rfl
  | cons m ms ih =>
    have htail := ih (fun x hx => h x (List.mem_cons_of_mem _ hx))
    have hm := h m (by simp)
    simp only [greenCount, amberCount, redCount, List.filter_cons,
      List.length_cons] at htail ⊢
    rcases hm with hm | hm | hm <;>
      simp only [hm] <;> simp <;> omega

theorem action_path_counts_sum_witness :
    (∀ m ∈ ([{ defaultMatch with qa_action_path := some "🟢" },
              { defaultMatch with qa_action_path := some "🔴" }] : List Match),
        m.qa_action_path = some "🟢" ∨ m.qa_action_path = some "🟠"
          ∨ m.qa_action_path = some "🔴")
    ∧ greenCount [{ defaultMatch with qa_action_path := some "🟢" },
              { defaultMatch with qa_action_path := some "🔴" }]
      + amberCount [{ defaultMatch with qa_action_path := some "🟢" },
              { defaultMatch with qa_action_path := some "🔴" }]
      + redCount [{ defaultMatch with qa_action_path := some "🟢" },
              { defaultMatch with qa_action_path := some "🔴" }]
      = 2 :=
  ⟨by decide,
   action_path_counts_sum _ (by decide)⟩

/-- Claim C7 fails as stated: a match whose `qa_confidence_level` field
is present but holds the empty string (falsy in JavaScript) is also
displayed and exported as `"Medium"`, not as its own value. -/
theorem confidence_fallback_counterexample :
    ({ defaultMatch with qa_confidence_level := some "" } : Match).qa_confidence_level
        = some ""
    ∧ confidenceCellText { defaultMatch with qa_confidence_level := some "" } = "Medium"
    ∧ (csvRowCells 0 { defaultMatch with qa_confidence_level := some "" })[13]?
        = some "Medium"
    ∧ ("Medium" : String) ≠ "" := by
  refine ⟨rfl, rfl, rfl, by decide⟩

/-- Claim C7 (amended): whenever a match record's `qa_confidence_level`
is absent — or present but empty, which JavaScript's `||` treats the
same way — both the classification table's confidence cell and the CSV
export's Confidence Level column show the default `"Medium"`; whenever
the field holds a non-empty value, that value is used unchanged in
both places. -/
theorem confidence_fallback (m : Match) (i : Nat) :
    ((m.qa_confidence_level = none ∨ m.qa_confidence_level = some "") →
      confidenceCellText m = "Medium" ∧ (csvRowCells i m)[13]? = some "Medium")
    ∧ ∀ s, m.qa_confidence_level = some s → s ≠ "" →
        confidenceCellText m = s ∧ (csvRowCells i m)[13]? = some s := by
  have hcell : (csvRowCells i m)[13]? = some (jsOrStr m.qa_confidence_level "Medium") :=
    rfl
  constructor
  · intro h
    have hv : jsOrStr m.qa_confidence_level "Medium" = "Medium" := by
      rcases h with h | h <;> simp [jsOrStr, h]
    exact ⟨hv, by rw [hcell, hv]⟩
  · intro s hs hne
    have hv : jsOrStr m.qa_confidence_level "Medium" = s := by
      simp [jsOrStr, hs, hne]
    exact ⟨hv, by rw [hcell, hv]⟩

theorem confidence_fallback_witness :
    (confidenceCellText defaultMatch = "Medium"
      ∧ (csvRowCells 0 defaultMatch)[13]? = some "Medium")
    ∧ (confidenceCellText { defaultMatch with qa_confidence_level := some "High" } = "High"
      ∧ (csvRowCells 2 { defaultMatch with qa_confidence_level := some "High" })[13]?
          = some "High") :=
  ⟨(confidence_fallback defaultMatch 0).1 (Or.inl rfl),
   (confidence_fallback { defaultMatch with qa_confidence_level := some "High" } 2).2
     "High" rfl (by decide)⟩

/-- Claim C5 fails as stated: a file named `pdf` has no final extension
at all, yet the QA-document selector accepts it, because the handler
takes the last dot-separated segment of the name — the whole name when
no dot is present — and `'.' + 'pdf'` is in the allowed list. -/
theorem upload_extension_counterexample :
    finalExtension "pdf" = none
    ∧ fileExtOf "pdf" = ".pdf"
    ∧ handleFileSelect qaDocTypes none "pdf" =
        { selected := some "pdf", errorShown := false } := by
  refine ⟨rfl, rfl, rfl⟩

/-- Claim C5 (amended): each selection handler accepts a file exactly
when the string `'.' + (last dot-separated segment of the name,
lowercased)` — which is the name's lowercased final extension whenever
the name contains a dot, and the whole lowercased name prefixed with a
dot otherwise — is in its allowed list (`.pdf/.docx/.doc/.txt` for the
QA document, `.xlsx/.xls/.csv` for the supplier item list).  A rejected
file shows a client-visible error and leaves the selected-file state
unchanged, and with no file selected no upload (hence no workflow) is
started. -/
theorem upload_extension_validation (current : Option String) (name : String) :
    (fileExtOf name ∉ qaDocTypes →
      handleFileSelect qaDocTypes current name = ⟨current, true⟩)
    ∧ (fileExtOf name ∈ qaDocTypes →
      handleFileSelect qaDocTypes current name = ⟨some name, false⟩)
    ∧ (fileExtOf name ∉ bomTypes →
      handleFileSelect bomTypes current name = ⟨current, true⟩)
    ∧ (fileExtOf name ∈ bomTypes →
      handleFileSelect bomTypes current name = ⟨some name, false⟩)
    ∧ (∀ e, finalExtension name = some e → fileExtOf name = "." ++ e)
    ∧ (∀ b, startProcessingProceeds none b = false) := by
  have hsel : ∀ allowed : List String,
      (fileExtOf name ∉ allowed →
        handleFileSelect allowed current name = ⟨current, true⟩)
      ∧ (fileExtOf name ∈ allowed →
        handleFileSelect allowed current name = ⟨some name, false⟩) := by
    intro allowed
    constructor
    · intro h
      have hc : ¬allowed.contains (fileExtOf name) = true :=
        fun hcc => h (List.mem_of_elem_eq_true hcc)
      simp only [handleFileSelect]
      rw [if_pos hc]
    · intro h
      have hc : allowed.contains (fileExtOf name) = true :=
        List.elem_eq_true_of_mem h
      simp only [handleFileSelect]
      rw [if_neg (not_not_intro hc)]
  refine ⟨(hsel qaDocTypes).1, (hsel qaDocTypes).2,
    (hsel bomTypes).1, (hsel bomTypes).2, ?_, fun b => rfl⟩
  intro e he
  by_cases hdot : '.' ∈ name.data
  · simp only [finalExtension, if_pos hdot, Option.some.injEq] at he
    rw [fileExtOf, ← he]
    rfl
  · simp [finalExtension, hdot] at he

theorem upload_extension_validation_witness :
    handleFileSelect qaDocTypes none "report.PDF" =
      { selected := some "report.PDF", errorShown := false }
    ∧ handleFileSelect bomTypes (some "old.csv") "report.PDF" =
      { selected := some "old.csv", errorShown := true }
    ∧ fileExtOf "report.PDF" = "." ++ "pdf"
    ∧ startProcessingProceeds none (some "items.csv") = false :=
  ⟨(upload_extension_validation none "report.PDF").2.1 (by decide),
   (upload_extension_validation (some "old.csv") "report.PDF").2.2.1 (by decide),
   (upload_extension_validation none "report.PDF").2.2.2.2.1 "pdf" rfl,
   (upload_extension_validation none "report.PDF").2.2.2.2.2 (some "items.csv")⟩

/-- Claim C6 fails as stated: the stage-status view does not show the
stage at the current position as `processing` for every workflow —
when the workflow's status is `completed` every stage is shown as
`completed`, including the current one and the ones after it (and when
the status is `error` every stage shows `error`). -/
theorem stage_status_counterexample :
    getStageStatus (some ⟨"completed", "comparison"⟩) "comparison" = "completed"
    ∧ getStageStatus (some ⟨"completed", "translation"⟩) "comparison" = "completed"
    ∧ ("completed" : String) ≠ "processing"
    ∧ ("completed" : String) ≠ "idle" := by
  refine ⟨rfl, rfl, by decide, by decide⟩

/-- The stage key at position `i` of the fixed pipeline order. -/
def stageKeyAt (i : Fin 4) : String :=
  stageKeys.get ⟨i.1, i.2⟩

theorem jsFindIndex_stageKeyAt (i : Fin 4) :
    jsFindIndex stageKeys (stageKeyAt i) = (i.1 : Int) := by
  fin_cases i <;> rfl

/-- Claim C6 (amended): for every workflow snapshot whose status is
neither `completed` nor `error` and whose current stage sits at
position `i` of the fixed order `translation, extraction, supplier_bom,
comparison`, the stage-status view shows every stage before `i` as
completed, the stage at `i` as processing, and every stage after `i`
as not started (idle).  When the status is `completed` or `error` the
view overrides this and shows every stage as completed or as error
respectively, contrary to the claim's unconditional reading. -/
theorem stage_status_view (w : WorkflowView) (i j : Fin 4)
    (herr : w.status ≠ "error") (hcomp : w.status ≠ "completed")
    (hcur : w.current_stage = stageKeyAt i) :
    getStageStatus (some w) (stageKeyAt j) =
      if j < i then "completed" else if j = i then "processing" else "idle" := by
  have hi := jsFindIndex_stageKeyAt i
  have hj := jsFindIndex_stageKeyAt j
  simp only [getStageStatus, hcur, hi, hj, if_neg herr, if_neg hcomp]
  fin_cases i <;> fin_cases j <;> decide

theorem stage_status_view_witness :
    getStageStatus (some ⟨"processing", "extraction"⟩) (stageKeyAt 0) = "completed"
    ∧ getStageStatus (some ⟨"processing", "extraction"⟩) (stageKeyAt 1) = "processing"
    ∧ getStageStatus (some ⟨"processing", "extraction"⟩) (stageKeyAt 2) = "idle"
    ∧ getStageStatus (some ⟨"processing", "extraction"⟩) (stageKeyAt 3) = "idle" := by
  have h0 := stage_status_view ⟨"processing", "extraction"⟩ 1 0
    (by decide) (by decide) rfl
  have h1 := stage_status_view ⟨"processing", "extraction"⟩ 1 1
    (by decide) (by decide) rfl
  have h2 := stage_status_view ⟨"processing", "extraction"⟩ 1 2
    (by decide) (by decide) rfl
  have h3 := stage_status_view ⟨"processing", "extraction"⟩ 1 3
    (by decide) (by decide) rfl
  refine ⟨?_, ?_, ?_, ?_⟩
  · simpa using h0
  · exact h1
  · simpa using h2
  · simpa using h3

theorem quoteCell_infix_renderRow {c : String} {cells : List String}
    (h : c ∈ cells) : quoteCell c <:+: renderRow cells := by
  induction cells with
  | nil => simp at h
  | cons c₀ cs ih =>
    cases cs with
    | nil =>
      simp only [List.mem_singleton] at h
      subst h
      simp only [renderRow, List.map_cons, List.map_nil, intercalate_singleton]
      exact List.infix_refl _
    | cons c₂ cs₂ =>
      rcases List.mem_cons.mp h with rfl | h2
      · refine ⟨[], ',' :: renderRow (c₂ :: cs₂), ?_⟩
        rw [renderRow_cons_cons]
        simp [quoteCell, List.append_assoc]
      · refine (ih h2).trans ⟨'"' :: (c₀.data ++ ['"', ',']), [], ?_⟩
        rw [renderRow_cons_cons]
        simp [List.append_assoc]

theorem csvTable_getElem_succ (ms : List Match) (i : Nat) (hm : i < ms.length) :
    (csvTable ms)[i + 1]? = some (csvRowCells i (ms.get ⟨i, hm⟩)) := by
  simp only [csvTable, List.getElem?_cons_succ, List.getElem?_map,
    List.getElem?_enum]
  simp [List.getElem?_eq_getElem hm]

/-- Claim C4: the CSV export produces one row per match record under a
fixed, ordered column set — the same 19 header columns in the same
order for every export, with the i-th data line holding the i-th
match's row — and every cell value, in particular any one containing
the comma field delimiter, appears quoted in the output: the
double-quoted form of each cell occurs intact inside its emitted
line. -/
theorem csv_fixed_columns_and_quoting (ms : List Match) :
    (csvLines ms).length = ms.length + 1
    ∧ (csvTable ms).head? = some csvHeaders
    ∧ csvHeaders.length = 19
    ∧ (∀ row ∈ csvTable ms, row.length = 19)
    ∧ (∀ i : Nat, ∀ hm : i < ms.length,
        (csvTable ms)[i + 1]? = some (csvRowCells i (ms.get ⟨i, hm⟩)))
    ∧ (∀ row ∈ csvTable ms, ∀ c ∈ row, quoteCell c <:+: renderRow row) := by
  refine ⟨?_, rfl, csvHeaders_length, ?_, ?_, ?_⟩
  · simp [csvLines, csvTable]
  · intro row h
    exact csvTable_row_length h
  · intro i hm
    exact csvTable_getElem_succ ms i hm
  · intro row _ c hc
    exact quoteCell_infix_renderRow hc

theorem csv_fixed_columns_and_quoting_witness :
    (csvLines [defaultMatch]).length = 1 + 1
    ∧ ("AI Processed" ∈ csvRowCells 0 defaultMatch)
    ∧ quoteCell "AI Processed" <:+: renderRow (csvRowCells 0 defaultMatch) :=
  ⟨(csv_fixed_columns_and_quoting [defaultMatch]).1,
   by with_unfolding_all decide,
   (csv_fixed_columns_and_quoting [defaultMatch]).2.2.2.2.2
     (csvRowCells 0 defaultMatch) (by with_unfolding_all decide)
     "AI Processed" (by with_unfolding_all decide)⟩

/-- Claim C2 fails as stated: the export does not preserve
`confidence_score`.  The Match Confidence column holds only
`Math.round(confidence_score * 100) + '%'`, so two match lists that
differ only in the scores 0.123 and 0.12 produce identical CSV
documents — no re-parsing of the output can recover the original
score. -/
theorem csv_roundtrip_counterexample :
    csvContent [{ defaultMatch with confidence_score := some (123 / 1000) }]
      = csvContent [{ defaultMatch with confidence_score := some (12 / 100) }]
    ∧ ({ defaultMatch with confidence_score := some (123 / 1000) } : Match).confidence_score
      ≠ ({ defaultMatch with confidence_score := some (12 / 100) } : Match).confidence_score := by
  constructor
  · with_unfolding_all rfl
  · with_unfolding_all decide

/-- Claim C2 (amended): for every list of N match records none of whose
rendered cells contains a double-quote or a newline character, the CSV
export produces exactly N+1 newline-separated lines (one header line
plus one line per match), and re-parsing the document recovers, for the
i-th match, the exported `qa_material_name` and `part_number` cells —
which equal the record's field values whenever those fields are present
and non-empty — while the confidence score is recovered only rounded to
the nearest percent, as the cell `Math.round(confidence_score * 100) +
'%'`. -/
theorem csv_export_roundtrip (ms : List Match)
    (hsafe : ∀ row ∈ csvTable ms, ∀ c ∈ row, '"' ∉ c.data ∧ '\n' ∉ c.data) :
    ((csvContent ms).splitOn '\n').length = ms.length + 1
    ∧ ∃ rows, parseCSV (csvContent ms) = some rows
        ∧ rows.length = ms.length + 1
        ∧ ∀ i, ∀ hm : i < ms.length, ∃ row, rows[i + 1]? = some row
            ∧ row[1]? = some (jsOrStr (ms.get ⟨i, hm⟩).qa_material_name "").data
            ∧ row[5]? = some (jsOrStr (ms.get ⟨i, hm⟩).part_number "").data
            ∧ row[17]? = some
                (toString (jsRound (((ms.get ⟨i, hm⟩).confidence_score.getD 0) * 100))
                  ++ "%").data := by
  have hsplit := splitOn_csvContent ms (fun row h c hc => (hsafe row h c hc).2)
  have hparse := parseCSV_csvContent ms hsafe
  constructor
  · rw [hsplit]
    simp [csvLines, csvTable]
  · refine ⟨_, hparse, ?_, ?_⟩
    · simp [csvTable]
    · intro i hm
      refine ⟨(csvRowCells i (ms.get ⟨i, hm⟩)).map String.data, ?_, rfl, rfl, rfl⟩
      rw [List.getElem?_map, csvTable_getElem_succ ms i hm]
      rfl

theorem csv_export_roundtrip_witness :
    (∀ row ∈ csvTable [{ defaultMatch with
          qa_material_name := some "Epoxy, Adhesive",
          part_number := some "PN-100",
          confidence_score := some (87 / 100) }],
        ∀ c ∈ row, '"' ∉ c.data ∧ '\n' ∉ c.data)
    ∧ (((csvContent [{ defaultMatch with
          qa_material_name := some "Epoxy, Adhesive",
          part_number := some "PN-100",
          confidence_score := some (87 / 100) }]).splitOn '\n').length = 1 + 1
    ∧ ∃ rows, parseCSV (csvContent [{ defaultMatch with
          qa_material_name := some "Epoxy, Adhesive",
          part_number := some "PN-100",
          confidence_score := some (87 / 100) }]) = some rows
        ∧ rows.length = 1 + 1
        ∧ ∀ i, ∀ hm : i < ([{ defaultMatch with
              qa_material_name := some "Epoxy, Adhesive",
              part_number := some "PN-100",
              confidence_score := some (87 / 100) }] : List Match).length,
            ∃ row, rows[i + 1]? = some row
            ∧ row[1]? = some (jsOrStr (([{ defaultMatch with
                  qa_material_name := some "Epoxy, Adhesive",
                  part_number := some "PN-100",
                  confidence_score := some (87 / 100) }] : List Match).get
                    ⟨i, hm⟩).qa_material_name "").data
            ∧ row[5]? = some (jsOrStr (([{ defaultMatch with
                  qa_material_name := some "Epoxy, Adhesive",
                  part_number := some "PN-100",
                  confidence_score := some (87 / 100) }] : List Match).get
                    ⟨i, hm⟩).part_number "").data
            ∧ row[17]? = some
                (toString (jsRound (((([{ defaultMatch with
                      qa_material_name := some "Epoxy, Adhesive",
                      part_number := some "PN-100",
                      confidence_score := some (87 / 100) }] : List Match).get
                        ⟨i, hm⟩).confidence_score.getD 0) * 100)) ++ "%").data) :=
  ⟨by with_unfolding_all decide, csv_export_roundtrip _ (by with_unfolding_all decide)⟩

end BomClient
